import Mathlib

/-!
Verification of the authentication, ownership and password-migration core of
the task-dashboard repository, as a shallow embedding in Lean.

Sources embedded:
* `task_dashboard/auth.py` : `AuthManager.hash_password`, `AuthManager.verify_password`,
  `AuthManager.create_user`, `AuthManager.authenticate_user`.
* `migrate_passwords.py` : `migrate_passwords`.
* `task_dashboard/api.py` : the task endpoints `get_task`, `create_task`,
  `update_task`, `update_task_status`, `delete_task`.

External libraries are not part of the repository and are modelled abstractly:
bcrypt and sha256 through the structure `HashLib`, whose fields state the
documented behaviour of those libraries (round trip, salt embedding, the
digest format marker, ideal collision freedom of sha256); the `bleach.clean`
sanitizer as an explicit function parameter.  Exceptions raised by the
libraries are modelled with `Option` (`none` models a raised exception), so a
total Lean function models Python code that catches every exception.
Randomness is modelled with an explicit entropy index `r : Nat` passed to each
call that draws a salt.  The database session is modelled as an explicit list
of rows.
-/

namespace TaskDashboard

/-- Python `str.split` with the one-character separator `'$'`, acting on the
character list of the string, exactly as `stored_hash.split` is used in
`auth.py`.  The Python call always returns at least one piece. -/
def splitDollar : List Char → List (List Char)
  | [] => [[]]
  | c :: rest =>
    if c = '$' then [] :: splitDollar rest
    else
      match splitDollar rest with
      | h :: t => (c :: h) :: t
      | [] => [[c]]

/-- Python `str.startswith` applied to the bcrypt version marker, on the
character level.  A digest in the modern format produced by `bcrypt.hashpw`
begins with this marker. -/
def isBcryptFormat (d : String) : Bool :=
  match d.data with
  | '$' :: '2' :: 'b' :: '$' :: _ => true
  | _ => false

/-- Abstract model of the external `bcrypt` and `hashlib.sha256` libraries
used by `auth.py`.  The propositional fields record the documented behaviour
of the real libraries: a digest round-trips against the password it was made
from, a digest carries the bcrypt version marker and embeds its salt, and
sha256 is treated as an ideal collision-free hash.  `bcryptCheckpw` returns
`none` to model the exception the real `bcrypt.checkpw` raises when the
stored digest does not parse as a bcrypt digest. -/
structure HashLib where
  bcryptHashpw : String → String → String
  bcryptGensalt : Nat → String
  bcryptCheckpw : String → String → Option Bool
  sha256hex : String → String
  hashpw_modern : ∀ p r, isBcryptFormat (bcryptHashpw p (bcryptGensalt r)) = true
  checkpw_hashpw : ∀ p r, bcryptCheckpw p (bcryptHashpw p (bcryptGensalt r)) = some true
  hashpw_inj : ∀ p r₁ r₂,
    bcryptHashpw p (bcryptGensalt r₁) = bcryptHashpw p (bcryptGensalt r₂) → r₁ = r₂
  sha256_inj : ∀ s₁ s₂, sha256hex s₁ = sha256hex s₂ → s₁ = s₂

/-- Embedding of `AuthManager.hash_password`: draw a fresh salt with
`bcrypt.gensalt` (the entropy of the draw is the explicit index `r`) and hash
the password with it. -/
def hash_password (L : HashLib) (password : String) (r : Nat) : String :=
  L.bcryptHashpw password (L.bcryptGensalt r)

/-- Embedding of `AuthManager.verify_password`: first try `bcrypt.checkpw`;
when that raises (modelled by `none`) fall back to the legacy format, split
the stored digest on the dollar separator into exactly a salt and a hex
digest, and compare the sha256 hex digest of password plus salt with the
stored hex digest; any failure of that parse yields `false`. -/
def verify_password (L : HashLib) (password stored : String) : Bool :=
  match L.bcryptCheckpw password stored with
  | some b => b
  | none =>
    match splitDollar stored.data with
    | [salt, hv] => decide ((L.sha256hex (password ++ String.mk salt)).data = hv)
    | _ => false

/-! Concrete instance of `HashLib`, used only to evaluate the theorems at
concrete inputs.  The salt drawn at entropy `r` is `r` copies of the letter
a, a digest is the marker, then the salt, then a separator, then the
password, and the sha256 model is the identity function, which is injective
and therefore satisfies the ideal collision-freedom field. -/

/-- Concrete model of `bcrypt.gensalt`. -/
def cGensalt (r : Nat) : String :=
  String.mk (List.replicate r 'a')

/-- Concrete model of `bcrypt.hashpw`. -/
def cHashpw (password salt : String) : String :=
  "$2b$" ++ salt ++ "$" ++ password

/-- Parse a run of the letter a followed by a dollar sign, returning the run
length added to the accumulator and the remainder.  Used by the concrete
model of `bcrypt.checkpw` to recover salt and password from a digest. -/
def parseSaltC : List Char → Nat → Option (Nat × List Char)
  | [], _ => none
  | c :: rest, n =>
    if c = 'a' then parseSaltC rest (n + 1)
    else if c = '$' then some (n, rest)
    else none

/-- Concrete model of `bcrypt.checkpw`: `none` (an exception) unless the
stored digest carries the bcrypt marker and parses back into a salt and a
password, `some` of the comparison otherwise. -/
def cCheckpw (password d : String) : Option Bool :=
  match d.data with
  | '$' :: '2' :: 'b' :: '$' :: rest =>
    match parseSaltC rest 0 with
    | some (_, tail) => some (decide (tail = password.data))
    | none => none
  | _ => none

theorem string_data_append (s t : String) : (s ++ t).data = s.data ++ t.data := by
  cases s
  cases t
  rfl

theorem string_mk_data (s : String) : String.mk s.data = s := by
  cases s
  rfl

theorem string_data_inj {s t : String} (h : s.data = t.data) : s = t := by
  cases s
  cases t
  exact congrArg String.mk h

theorem cHashpw_data (password salt : String) :
    (cHashpw password salt).data =
      '$' :: '2' :: 'b' :: '$' :: (salt.data ++ '$' :: password.data) := by
  cases salt
  cases password
  simp [cHashpw, string_data_append]

theorem parseSaltC_spec (r n : Nat) (rest : List Char) :
    parseSaltC (List.replicate r 'a' ++ '$' :: rest) n = some (n + r, rest) := by
  induction r generalizing n with
  | zero => simp [parseSaltC]
  | succ k ih =>
    rw [List.replicate_succ, List.cons_append]
    show parseSaltC ('a' :: (List.replicate k 'a' ++ '$' :: rest)) n = some (n + (k + 1), rest)
    rw [parseSaltC, if_pos rfl, ih (n + 1)]
    congr 2
    omega

theorem cCheckpw_cHashpw (password : String) (r : Nat) :
    cCheckpw password (cHashpw password (cGensalt r)) = some true := by
  have hd : (cGensalt r).data = List.replicate r 'a' := rfl
  rw [cCheckpw, cHashpw_data, hd]
  simp [parseSaltC_spec]

theorem cHashpw_modern (password : String) (r : Nat) :
    isBcryptFormat (cHashpw password (cGensalt r)) = true := by
  rw [isBcryptFormat, cHashpw_data]
  rfl

theorem cHashpw_inj (password : String) (r₁ r₂ : Nat)
    (h : cHashpw password (cGensalt r₁) = cHashpw password (cGensalt r₂)) : r₁ = r₂ := by
  have h2 := congrArg String.data h
  rw [cHashpw_data, cHashpw_data] at h2
  have h3 : List.replicate r₁ 'a' ++ '$' :: password.data =
      List.replicate r₂ 'a' ++ '$' :: password.data := by
    simpa [cGensalt] using h2
  have h4 := congrArg (fun l => parseSaltC l 0) h3
  simp only [parseSaltC_spec, Option.some.injEq, Prod.mk.injEq] at h4
  omega

/-- Concrete `HashLib` instance: every theorem below is evaluated on it. -/
def cHashLib : HashLib where
  bcryptHashpw := cHashpw
  bcryptGensalt := cGensalt
  bcryptCheckpw := cCheckpw
  sha256hex := fun s => s
  hashpw_modern := cHashpw_modern
  checkpw_hashpw := cCheckpw_cHashpw
  hashpw_inj := cHashpw_inj
  sha256_inj := fun _ _ h => h

/-- C2: for every plaintext `p` and every per-call salt draw `r`, verifying
`p` against the digest produced by hashing `p` returns true. -/
theorem verify_of_hash (L : HashLib) (p : String) (r : Nat) :
    verify_password L p (hash_password L p r) = true := by
  simp only [verify_password, hash_password, L.checkpw_hashpw]

/-- C2 witness: evaluation on the concrete library model. -/
theorem verify_of_hash_witness :
    verify_password cHashLib "secret123" (hash_password cHashLib "secret123" 0) = true :=
  verify_of_hash cHashLib "secret123" 0

/-- C5: hashing is non-deterministic across calls: two invocations of
`hash_password` on the same plaintext with distinct per-call salt draws
yield two different digest strings, because the digest embeds the salt. -/
theorem hash_password_nondeterministic (L : HashLib) (p : String) (r₁ r₂ : Nat)
    (h : r₁ ≠ r₂) : hash_password L p r₁ ≠ hash_password L p r₂ :=
  fun he => h (L.hashpw_inj p r₁ r₂ he)

/-- C5 witness: the two digests drawn at entropy indices 0 and 1 differ. -/
theorem hash_password_nondeterministic_witness :
    hash_password cHashLib "secret123" 0 ≠ hash_password cHashLib "secret123" 1 :=
  hash_password_nondeterministic cHashLib "secret123" 0 1 (by decide)

theorem splitDollar_no_dollar (l : List Char) (h : '$' ∉ l) : splitDollar l = [l] := by
  induction l with
  | nil => rfl
  | cons c rest ih =>
    have hc : ¬ c = '$' := by
      intro he
      exact h (by rw [he]; exact List.mem_cons_self _ _)
    have hr : '$' ∉ rest := fun hm => h (List.mem_cons_of_mem c hm)
    rw [splitDollar, if_neg hc, ih hr]

theorem splitDollar_pair (a b : List Char) (ha : '$' ∉ a) (hb : '$' ∉ b) :
    splitDollar (a ++ '$' :: b) = [a, b] := by
  induction a with
  | nil =>
    rw [List.nil_append, splitDollar, if_pos rfl, splitDollar_no_dollar b hb]
  | cons c rest ih =>
    have hc : ¬ c = '$' := by
      intro he
      exact ha (by rw [he]; exact List.mem_cons_self _ _)
    have hr : '$' ∉ rest := fun hm => ha (List.mem_cons_of_mem c hm)
    rw [List.cons_append, splitDollar, if_neg hc, ih hr]

/-- C3: a legacy-format digest, the salt then a dollar then the sha256 hex
digest of plaintext plus salt, verifies true for the original plaintext and
false for every other plaintext; and the legacy comparison is only ever
attempted when `bcrypt.checkpw` fails to parse the stored digest (third
conjunct: whenever `bcrypt.checkpw` parses the digest, its verdict is
returned unchanged and the legacy path is not consulted).  The hypotheses
record the legacy format: a legacy digest does not parse as a modern bcrypt
digest, and neither the salt nor the hex digest contains the dollar
separator. -/
theorem legacy_digest_verify (L : HashLib) (p s : String)
    (hnm : ∀ q, L.bcryptCheckpw q (s ++ "$" ++ L.sha256hex (p ++ s)) = none)
    (hs : '$' ∉ s.data) (hh : '$' ∉ (L.sha256hex (p ++ s)).data) :
    verify_password L p (s ++ "$" ++ L.sha256hex (p ++ s)) = true ∧
    (∀ p2, p2 ≠ p → verify_password L p2 (s ++ "$" ++ L.sha256hex (p ++ s)) = false) ∧
    (∀ q d b, L.bcryptCheckpw q d = some b → verify_password L q d = b) := by
  have hd : (s ++ "$" ++ L.sha256hex (p ++ s)).data
      = s.data ++ '$' :: (L.sha256hex (p ++ s)).data := by
    rw [string_data_append, string_data_append]
    simp
  have hsplit : splitDollar ((s ++ "$" ++ L.sha256hex (p ++ s)).data)
      = [s.data, (L.sha256hex (p ++ s)).data] := by
    rw [hd]
    exact splitDollar_pair _ _ hs hh
  refine ⟨?_, ?_, ?_⟩
  · simp only [verify_password, hnm p, hsplit, string_mk_data]
    simp
  · intro p2 hne
    simp only [verify_password, hnm p2, hsplit, string_mk_data]
    rw [decide_eq_false_iff_not]
    intro heq
    apply hne
    have h1 : L.sha256hex (p2 ++ s) = L.sha256hex (p ++ s) := string_data_inj heq
    have h2 : p2 ++ s = p ++ s := L.sha256_inj _ _ h1
    have h3 : p2.data ++ s.data = p.data ++ s.data := by
      rw [← string_data_append, ← string_data_append, h2]
    exact string_data_inj (List.append_cancel_right h3)
  · intro q d b h
    simp only [verify_password, h]

/-- C3 witness: on the concrete library model, the legacy digest built from
plaintext pw and salt ss verifies true for pw and false for xx. -/
theorem legacy_digest_verify_witness :
    verify_password cHashLib "pw" ("ss" ++ "$" ++ cHashLib.sha256hex ("pw" ++ "ss")) = true ∧
    verify_password cHashLib "xx" ("ss" ++ "$" ++ cHashLib.sha256hex ("pw" ++ "ss")) = false :=
  ⟨(legacy_digest_verify cHashLib "pw" "ss" (fun _ => rfl) (by decide) (by decide)).1,
   (legacy_digest_verify cHashLib "pw" "ss" (fun _ => rfl) (by decide) (by decide)).2.1
     "xx" (by decide)⟩

/-- C4: `verify_password` is a total Lean function, so no exception can
escape it by construction; and on a stored string that neither parses as a
modern digest (the `bcrypt.checkpw` model returns `none`, the exception
case) nor splits into exactly a salt and a hex digest on the dollar
separator, it returns false. -/
theorem verify_malformed_false (L : HashLib) (p d : String)
    (hb : L.bcryptCheckpw p d = none)
    (hs : (splitDollar d.data).length ≠ 2) :
    verify_password L p d = false := by
  rcases hl : splitDollar d.data with _ | ⟨a, _ | ⟨b, _ | ⟨c, t⟩⟩⟩
  · simp only [verify_password, hb, hl]
  · simp only [verify_password, hb, hl]
  · exact absurd (by rw [hl]; rfl) hs
  · simp only [verify_password, hb, hl]

/-- C4 witness: a garbage digest with no dollar separator verifies false on
the concrete library model. -/
theorem verify_malformed_false_witness :
    verify_password cHashLib "secret123" "garbage" = false :=
  verify_malformed_false cHashLib "secret123" "garbage" rfl (by decide)

/-- Row of the `users` table (`UserModel` in `database.py`), restricted to
the fields the embedded code reads or writes.  The timestamps are managed by
the store and are not touched by the embedded code paths. -/
structure User where
  id : Nat
  username : String
  email : String
  password_hash : String
deriving DecidableEq

/-- Embedding of `migrate_passwords` from `migrate_passwords.py`: walk over
all user rows; whenever a password digest contains the dollar separator,
overwrite it with a fresh bcrypt digest of the fixed placeholder plaintext
and count the row as migrated.  The entropy of the salt drawn for the row at
position `i` is `rs i`; the result is the updated table and the migrated
count that the script reports. -/
def migrate_passwords (L : HashLib) (rs : Nat → Nat) : Nat → List User → List User × Nat
  | _, [] => ([], 0)
  | i, u :: us =>
    let rec_result := migrate_passwords L rs (i + 1) us
    if '$' ∈ u.password_hash.data then
      ({ u with password_hash := hash_password L "temporary_password" (rs i) } :: rec_result.1,
        rec_result.2 + 1)
    else
      (u :: rec_result.1, rec_result.2)

/-- C1 is a code bug and this theorem evaluates the code at the failing
input.  The spec demands that re-running the migrator after a completed run
is a no-op: modern digests are skipped, the second run reports zero migrated
rows, and no previously-modern digest is altered.  The code instead tests
for the legacy format with a dollar-containment check, and every modern
bcrypt digest also contains the dollar separator.  Concretely: the first run
(entropy draws 0) turns a legacy row into the modern digest
`hash_password cHashLib "temporary_password" 0`, which carries the bcrypt
marker; the second run (fresh entropy draws 1) nevertheless reports one
migrated row, not zero, and overwrites the previously-modern digest. -/
theorem migrator_rerun_bug :
    (migrate_passwords cHashLib (fun _ => 0) 0
        [User.mk 1 "alice" "a@x.com" "somesalt$deadbeef"]).1 =
      [User.mk 1 "alice" "a@x.com" (hash_password cHashLib "temporary_password" 0)] ∧
    isBcryptFormat (hash_password cHashLib "temporary_password" 0) = true ∧
    (migrate_passwords cHashLib (fun _ => 1) 0
        [User.mk 1 "alice" "a@x.com" (hash_password cHashLib "temporary_password" 0)]).2 = 1 ∧
    (migrate_passwords cHashLib (fun _ => 1) 0
        [User.mk 1 "alice" "a@x.com" (hash_password cHashLib "temporary_password" 0)]).1 ≠
      [User.mk 1 "alice" "a@x.com" (hash_password cHashLib "temporary_password" 0)] := by
  refine ⟨by decide, by decide, by decide, by decide⟩

/-- Public fields of a user, the dictionary `create_user`,
`authenticate_user` and `get_user_by_id` return: id, username and email.
The password digest is absent from this type, so no code path returning it
can expose a digest. -/
structure UserInfo where
  id : Nat
  username : String
  email : String
deriving DecidableEq

/-- State of the `users` table together with the autoincrement counter the
store assigns the next inserted row from. -/
structure UserStore where
  users : List User
  nextId : Nat
deriving DecidableEq

/-- Lookup used by `create_user`, `authenticate_user` and
`get_current_user`: the first row whose username or email equals the probe,
a single combined query. -/
def findUser (users : List User) (uname email : String) : Option User :=
  List.find? (fun u => u.username == uname || u.email == email) users

/-- Embedding of `AuthManager.create_user`: one combined lookup for an
existing row with the same username or the same email; on a hit return
`none` (the conflict) and leave the store unchanged; otherwise insert the
new row with a freshly hashed digest (salt entropy `r`) and return the
public fields of the new row. -/
def create_user (L : HashLib) (r : Nat) (st : UserStore) (uname email password : String) :
    UserStore × Option UserInfo :=
  match findUser st.users uname email with
  | some _ => (st, none)
  | none =>
    let u := User.mk st.nextId uname email (hash_password L password r)
    (UserStore.mk (st.users ++ [u]) (st.nextId + 1), some (UserInfo.mk u.id u.username u.email))

/-- Embedding of `AuthManager.authenticate_user`: look up the row whose
username or email equals the identifier; if found and the password verifies
against the stored digest return the public fields, otherwise return `none`.
The same `none` is produced for an unknown identifier and for a failing
password. -/
def authenticate_user (L : HashLib) (st : UserStore) (identifier password : String) :
    Option UserInfo :=
  match findUser st.users identifier identifier with
  | some u =>
    if verify_password L password u.password_hash then
      some (UserInfo.mk u.id u.username u.email)
    else none
  | none => none

/-- C6: `create_user` returns the conflict result exactly when some existing
row already has the same username or the same email (first conjunct, both
directions of the single combined lookup); on conflict the store is
unchanged (second conjunct); on success the new row is appended with a
modern-format digest of the password and only the public fields id,
username and email are returned, a value of `UserInfo`, a type with no
digest field (third conjunct). -/
theorem create_user_spec (L : HashLib) (r : Nat) (st : UserStore) (uname email password : String) :
    ((create_user L r st uname email password).2 = none ↔
      ∃ u ∈ st.users, u.username = uname ∨ u.email = email) ∧
    ((create_user L r st uname email password).2 = none →
      (create_user L r st uname email password).1 = st) ∧
    ((create_user L r st uname email password).2 ≠ none →
      (create_user L r st uname email password).2 = some (UserInfo.mk st.nextId uname email) ∧
      (create_user L r st uname email password).1.users =
        st.users ++ [User.mk st.nextId uname email (hash_password L password r)] ∧
      isBcryptFormat (hash_password L password r) = true) := by
  rcases hf : findUser st.users uname email with _ | u
  · have hcu : create_user L r st uname email password =
        (UserStore.mk
            (st.users ++ [User.mk st.nextId uname email (hash_password L password r)])
            (st.nextId + 1),
          some (UserInfo.mk st.nextId uname email)) := by
      rw [create_user, hf]
    have hnone : ¬ ∃ u ∈ st.users, u.username = uname ∨ u.email = email := by
      rw [findUser, List.find?_eq_none] at hf
      rintro ⟨u, hu, hor⟩
      exact hf u hu (by simpa using hor)
    refine ⟨?_, ?_, ?_⟩
    · rw [hcu]
      exact iff_of_false (by simp) hnone
    · intro h
      rw [hcu] at h
      exact Option.noConfusion h
    · intro _
      rw [hcu]
      exact ⟨rfl, rfl, L.hashpw_modern password r⟩
  · have hcu : create_user L r st uname email password = (st, none) := by
      rw [create_user, hf]
    have hmem : u ∈ st.users := List.mem_of_find?_eq_some hf
    have hpred := List.find?_some hf
    refine ⟨?_, ?_, ?_⟩
    · rw [hcu]
      refine iff_of_true rfl ⟨u, hmem, ?_⟩
      simpa using hpred
    · intro _
      rw [hcu]
    · rw [hcu]
      intro h
      exact absurd rfl h

/-- C6 witness: with alice registered, registering the same username again
conflicts, and the conflicting call leaves the store unchanged. -/
theorem create_user_spec_witness :
    (create_user cHashLib 0 (UserStore.mk [User.mk 1 "alice" "a@x.com" "d"] 2)
        "alice" "b@x.com" "pw2").2 = none ∧
    (create_user cHashLib 0 (UserStore.mk [User.mk 1 "alice" "a@x.com" "d"] 2)
        "alice" "b@x.com" "pw2").1 = UserStore.mk [User.mk 1 "alice" "a@x.com" "d"] 2 := by
  have h := create_user_spec cHashLib 0 (UserStore.mk [User.mk 1 "alice" "a@x.com" "d"] 2)
    "alice" "b@x.com" "pw2"
  have h1 := h.1.mpr ⟨User.mk 1 "alice" "a@x.com" "d", by decide, Or.inl rfl⟩
  exact ⟨h1, h.2.1 h1⟩

/-- C7: `authenticate_user` succeeds exactly on the looked-up identity with
a verifying password.  First conjunct: any success comes from a stored row
whose username or email equals the identifier, whose digest verifies the
password, and only the public fields of that row are returned.  Second and
third conjuncts: an unknown identifier and a failing password produce the
very same result, `none`, so the caller cannot tell the two causes apart.
Fourth conjunct: when the lookup finds a row and the password verifies, the
call does succeed with that row. -/
theorem authenticate_user_spec (L : HashLib) (st : UserStore) (identifier password : String) :
    (∀ info, authenticate_user L st identifier password = some info →
      ∃ u ∈ st.users, (u.username = identifier ∨ u.email = identifier) ∧
        verify_password L password u.password_hash = true ∧
        info = UserInfo.mk u.id u.username u.email) ∧
    ((¬ ∃ u ∈ st.users, u.username = identifier ∨ u.email = identifier) →
      authenticate_user L st identifier password = none) ∧
    (∀ u, findUser st.users identifier identifier = some u →
      verify_password L password u.password_hash = false →
      authenticate_user L st identifier password = none) ∧
    (∀ u, findUser st.users identifier identifier = some u →
      verify_password L password u.password_hash = true →
      authenticate_user L st identifier password =
        some (UserInfo.mk u.id u.username u.email)) := by
  refine ⟨?_, ?_, ?_, ?_⟩
  · intro info h
    rcases hf : findUser st.users identifier identifier with _ | u
    · simp only [authenticate_user, hf] at h
      exact Option.noConfusion h
    · simp only [authenticate_user, hf] at h
      rcases hv : verify_password L password u.password_hash with _ | _
      · rw [hv, if_neg (by decide)] at h
        exact Option.noConfusion h
      · rw [hv, if_pos rfl] at h
        refine ⟨u, List.mem_of_find?_eq_some hf, ?_, hv, ?_⟩
        · simpa using List.find?_some hf
        · injection h with h2
          exact h2.symm
  · intro hnone
    have hf : findUser st.users identifier identifier = none := by
      rw [findUser, List.find?_eq_none]
      intro u hu hp
      exact hnone ⟨u, hu, by simpa using hp⟩
    simp only [authenticate_user, hf]
  · intro u hf hv
    simp only [authenticate_user, hf]
    rw [hv, if_neg (by decide)]
  · intro u hf hv
    simp only [authenticate_user, hf]
    rw [hv, if_pos rfl]

/-- C7 witness: an unknown identifier yields the unauthenticated result on a
concrete store. -/
theorem authenticate_user_spec_witness :
    authenticate_user cHashLib (UserStore.mk [User.mk 1 "alice" "a@x.com" "d"] 2)
      "mallory" "pw" = none :=
  (authenticate_user_spec cHashLib (UserStore.mk [User.mk 1 "alice" "a@x.com" "d"] 2)
      "mallory" "pw").2.1 (by decide)

/-- Row of the `tasks` table (`TaskModel` in `database.py`), restricted to
the fields the embedded endpoints read or write; `created_at` is an abstract
timestamp and `updated_at`, which the store maintains on every write, is
left to the store. -/
structure Task where
  id : Nat
  user_id : Nat
  title : String
  description : String
  status : String
  priority : String
  due_date : Option String
  created_at : Nat
deriving DecidableEq

/-- Request body of POST tasks (`TaskCreate` in `api.py`).  The type has no
owner field: a client cannot supply one. -/
structure TaskCreate where
  title : String
  description : String
  priority : String
  due_date : Option String
deriving DecidableEq

/-- Request body of PUT tasks (`TaskUpdate` in `api.py`): every field
optional, `none` meaning omitted. -/
structure TaskUpdate where
  title : Option String
  description : Option String
  status : Option String
  priority : Option String
  due_date : Option String
deriving DecidableEq

/-- Error outcomes of the task endpoints: status 400 and status 404. -/
inductive ApiError where
  | badRequest
  | notFound
deriving DecidableEq

/-- Whitespace recognized by Python `str.strip`, on the ASCII range the
embedded strings live in. -/
def isSpaceChar (c : Char) : Bool :=
  c == ' ' || c == '\t' || c == '\n' || c == '\r' || c == Char.ofNat 11 || c == Char.ofNat 12

/-- Python `str.strip` with no argument: drop leading and trailing
whitespace. -/
def pyStrip (s : String) : String :=
  String.mk (((s.data.dropWhile isSpaceChar).reverse.dropWhile isSpaceChar).reverse)

/-- Full match of the anchored date pattern used in `api.py`: four digits,
a dash, two digits, a dash, two digits. -/
def dateOk (s : String) : Bool :=
  match s.data with
  | [y1, y2, y3, y4, d1, m1, m2, d2, e1, e2] =>
    y1.isDigit && y2.isDigit && y3.isDigit && y4.isDigit && (d1 == '-') &&
      m1.isDigit && m2.isDigit && (d2 == '-') && e1.isDigit && e2.isDigit
  | _ => false

/-- Due-date check shared by `create_task` and `update_task` in `api.py`: a
provided, non-empty due date that does not match the date pattern is
rejected; an omitted or empty one is let through. -/
def dueRejected : Option String → Bool
  | none => false
  | some s => !(s == "") && !(dateOk s)

/-- Validation block of `update_task` in `api.py`, run before the store is
consulted: a provided title must be non-empty after trimming and at most 255
characters, a provided description at most 1000 characters after trimming, a
provided priority and status must come from the allowed lists, and a
provided due date must pass the due-date check. -/
def validUpdate (p : TaskUpdate) : Bool :=
  (match p.title with
   | none => true
   | some s => !(pyStrip s == "") && decide ((pyStrip s).length ≤ 255)) &&
  (match p.description with
   | none => true
   | some s => decide ((pyStrip s).length ≤ 1000)) &&
  (match p.priority with
   | none => true
   | some s => ["low", "medium", "high"].contains s) &&
  (match p.status with
   | none => true
   | some s => ["todo", "in_progress", "done"].contains s) &&
  !(dueRejected p.due_date)

/-- Ownership-scoped single-row query used by every task endpoint in
`api.py`: the first row whose id equals the requested task id and whose
owner equals the authenticated user. -/
def findTask (ts : List Task) (tid uid : Nat) : Option Task :=
  List.find? (fun t => t.id == tid && t.user_id == uid) ts

/-- Model of the ORM session mutating the row the query returned: replace
the first row satisfying the query predicate. -/
def replaceFirst : List Task → (Task → Bool) → Task → List Task
  | [], _, _ => []
  | t :: ts, f, t2 => if f t then t2 :: ts else t :: replaceFirst ts f t2

/-- Field assignments of `update_task` in `api.py`: each provided field is
written (title and description trimmed first), each omitted field is left as
it was. -/
def applyUpdate (p : TaskUpdate) (t : Task) : Task :=
  { t with
    title := match p.title with | some s => pyStrip s | none => t.title
    description := match p.description with | some s => pyStrip s | none => t.description
    status := match p.status with | some s => s | none => t.status
    priority := match p.priority with | some s => s | none => t.priority
    due_date := match p.due_date with | some s => some s | none => t.due_date }

/-- Embedding of GET tasks by id in `api.py`: the ownership-scoped query,
404 when it returns no row. -/
def get_task (ts : List Task) (uid tid : Nat) : Except ApiError Task :=
  match findTask ts tid uid with
  | none => Except.error ApiError.notFound
  | some t => Except.ok t

/-- Embedding of POST tasks in `api.py`: validate (empty title, priority
list, due-date pattern), sanitize through `bleach.clean` (the explicit
`clean` parameter), then insert a new row with status todo whose owner is
the authenticated user id and whose id the store assigns. -/
def create_task (clean : String → String) (ts : List Task) (nid uid now : Nat)
    (tc : TaskCreate) : Except ApiError (List Task × Task) :=
  if pyStrip tc.title == "" then Except.error ApiError.badRequest
  else if !(["low", "medium", "high"].contains tc.priority) then Except.error ApiError.badRequest
  else if dueRejected tc.due_date then Except.error ApiError.badRequest
  else
    Except.ok
      (ts ++ [Task.mk nid uid (clean (pyStrip tc.title)) (clean (pyStrip tc.description))
        "todo" tc.priority tc.due_date now],
       Task.mk nid uid (clean (pyStrip tc.title)) (clean (pyStrip tc.description))
        "todo" tc.priority tc.due_date now)

/-- Embedding of PUT tasks in `api.py`: the validation block, then the
ownership-scoped query (404 when it returns no row), then the field
assignments on the found row. -/
def update_task (ts : List Task) (uid tid : Nat) (p : TaskUpdate) :
    Except ApiError (List Task × Task) :=
  if validUpdate p then
    match findTask ts tid uid with
    | none => Except.error ApiError.notFound
    | some t =>
      Except.ok (replaceFirst ts (fun x => x.id == tid && x.user_id == uid) (applyUpdate p t),
        applyUpdate p t)
  else Except.error ApiError.badRequest

/-- Embedding of PATCH task status in `api.py`: the ownership-scoped query
(404 when it returns no row), then the status assignment on the found row. -/
def update_task_status (ts : List Task) (uid tid : Nat) (newStatus : String) :
    Except ApiError (List Task) :=
  match findTask ts tid uid with
  | none => Except.error ApiError.notFound
  | some t =>
    Except.ok (replaceFirst ts (fun x => x.id == tid && x.user_id == uid)
      { t with status := newStatus })

/-- Embedding of DELETE tasks in `api.py`: the ownership-scoped query (404
when it returns no row), then removal of the found row. -/
def delete_task (ts : List Task) (uid tid : Nat) : Except ApiError (List Task) :=
  match findTask ts tid uid with
  | none => Except.error ApiError.notFound
  | some _ => Except.ok (List.eraseP (fun x => x.id == tid && x.user_id == uid) ts)

theorem applyUpdate_user_id (p : TaskUpdate) (t : Task) :
    (applyUpdate p t).user_id = t.user_id := rfl

theorem replaceFirst_map {β : Type} (g : Task → β) (f : Task → Bool) (t2 : Task) :
    ∀ ts : List Task, (∀ t ∈ ts, f t = true → g t2 = g t) →
      (replaceFirst ts f t2).map g = ts.map g := by
  intro ts
  induction ts with
  | nil => intro _; rfl
  | cons a rest ih =>
    intro hg
    by_cases hfa : f a = true
    · rw [replaceFirst, if_pos hfa]
      simp only [List.map_cons]
      rw [hg a (List.mem_cons_self _ _) hfa]
    · rw [replaceFirst, if_neg hfa]
      simp only [List.map_cons]
      rw [ih (fun t ht hft => hg t (List.mem_cons_of_mem a ht) hft)]

/-- C8: when no task with the requested id is owned by the authenticated
user — whether because no task with that id exists at all, or because the
task belongs to a different user, both satisfy the hypothesis — each of the
four single-task operations (read, full update, status change, delete)
reports not-found, and all four report the very same not-found value, so the
two causes are indistinguishable to the caller.  The update operation is
taken with a payload that passes its validation block, which runs before the
ownership-scoped query. -/
theorem ownership_not_found (ts : List Task) (uid tid : Nat) (p : TaskUpdate)
    (newStatus : String)
    (h : ∀ t ∈ ts, ¬(t.id = tid ∧ t.user_id = uid)) (hp : validUpdate p = true) :
    get_task ts uid tid = Except.error ApiError.notFound ∧
    update_task ts uid tid p = Except.error ApiError.notFound ∧
    update_task_status ts uid tid newStatus = Except.error ApiError.notFound ∧
    delete_task ts uid tid = Except.error ApiError.notFound := by
  have hf : findTask ts tid uid = none := by
    rw [findTask, List.find?_eq_none]
    intro t ht
    simpa using h t ht
  refine ⟨?_, ?_, ?_, ?_⟩
  · simp only [get_task, hf]
  · simp [update_task, hp, hf]
  · simp only [update_task_status, hf]
  · simp only [delete_task, hf]

/-- C8 witness: a store holding one task with id 5 owned by user 2; user 1
requesting task 5 receives not-found from all four operations. -/
theorem ownership_not_found_witness :
    get_task [Task.mk 5 2 "t" "" "todo" "low" none 0] 1 5 =
      Except.error ApiError.notFound ∧
    update_task [Task.mk 5 2 "t" "" "todo" "low" none 0] 1 5
      (TaskUpdate.mk none none none none none) = Except.error ApiError.notFound ∧
    update_task_status [Task.mk 5 2 "t" "" "todo" "low" none 0] 1 5 "done" =
      Except.error ApiError.notFound ∧
    delete_task [Task.mk 5 2 "t" "" "todo" "low" none 0] 1 5 =
      Except.error ApiError.notFound :=
  ownership_not_found [Task.mk 5 2 "t" "" "todo" "low" none 0] 1 5
    (TaskUpdate.mk none none none none none) "done" (by decide) (by decide)

/-- C9: a created task always carries the authenticated user id as its
owner — the request body type `TaskCreate` has no owner field, so a client
cannot supply one — and neither the full update nor the status change ever
alters the owner of any stored task: the per-position list of owners is
unchanged, and the row returned by the update still belongs to the
authenticated user. -/
theorem owner_stamped_never_changed (clean : String → String) (ts : List Task)
    (nid uid now tid : Nat) (tc : TaskCreate) (p : TaskUpdate) (newStatus : String) :
    (∀ ts2 t2, create_task clean ts nid uid now tc = Except.ok (ts2, t2) →
      t2.user_id = uid) ∧
    (∀ ts2 t2, update_task ts uid tid p = Except.ok (ts2, t2) →
      ts2.map Task.user_id = ts.map Task.user_id ∧ t2.user_id = uid) ∧
    (∀ ts2, update_task_status ts uid tid newStatus = Except.ok ts2 →
      ts2.map Task.user_id = ts.map Task.user_id) := by
  refine ⟨?_, ?_, ?_⟩
  · intro ts2 t2 h
    rw [create_task] at h
    split at h
    · exact Except.noConfusion h
    · split at h
      · exact Except.noConfusion h
      · split at h
        · exact Except.noConfusion h
        · simp only [Except.ok.injEq, Prod.mk.injEq] at h
          rw [← h.2]
  · intro ts2 t2 h
    rcases hf : findTask ts tid uid with _ | t
    · simp only [update_task, hf] at h
      split at h
      · exact Except.noConfusion h
      · exact Except.noConfusion h
    · have hu : t.user_id = uid := by
        have := List.find?_some hf
        simp only [Bool.and_eq_true, beq_iff_eq] at this
        exact this.2
      simp only [update_task, hf] at h
      split at h
      · simp only [Except.ok.injEq, Prod.mk.injEq] at h
        constructor
        · rw [← h.1]
          refine replaceFirst_map Task.user_id _ _ ts ?_
          intro x hx hfx
          simp only [Bool.and_eq_true, beq_iff_eq] at hfx
          rw [applyUpdate_user_id, hu, hfx.2]
        · rw [← h.2, applyUpdate_user_id, hu]
      · exact Except.noConfusion h
  · intro ts2 h
    rcases hf : findTask ts tid uid with _ | t
    · simp only [update_task_status, hf] at h
      exact Except.noConfusion h
    · have hu : t.user_id = uid := by
        have := List.find?_some hf
        simp only [Bool.and_eq_true, beq_iff_eq] at this
        exact this.2
      simp only [update_task_status, hf, Except.ok.injEq] at h
      rw [← h]
      refine replaceFirst_map Task.user_id _ _ ts ?_
      intro x hx hfx
      simp only [Bool.and_eq_true, beq_iff_eq] at hfx
      rw [hu, hfx.2]

/-- C9 witness: a concrete creation stamps owner 1, and a concrete status
change leaves the single stored owner unchanged. -/
theorem owner_stamped_never_changed_witness :
    (Task.mk 7 1 "hello" "" "todo" "medium" none 0).user_id = 1 ∧
    [Task.mk 5 1 "t" "" "done" "low" none 0].map Task.user_id =
      [Task.mk 5 1 "t" "" "todo" "low" none 0].map Task.user_id := by
  have h := owner_stamped_never_changed (fun s => s) [] 7 1 0 5
    (TaskCreate.mk "hello" "" "medium" none) (TaskUpdate.mk none none none none none) "done"
  have h2 := owner_stamped_never_changed (fun s => s) [Task.mk 5 1 "t" "" "todo" "low" none 0]
    7 1 0 5 (TaskCreate.mk "hello" "" "medium" none) (TaskUpdate.mk none none none none none)
    "done"
  refine ⟨h.1 [Task.mk 7 1 "hello" "" "todo" "medium" none 0]
    (Task.mk 7 1 "hello" "" "todo" "medium" none 0) rfl, ?_⟩
  exact h2.2.2 [Task.mk 5 1 "t" "" "done" "low" none 0] rfl

/-- C10: the full update changes exactly the provided payload fields: every
omitted field keeps its previous value, every provided field takes the
provided value (title and description after trimming), and the id, the
owner and the creation timestamp of the task are never touched by an
update. -/
theorem update_task_frame (ts : List Task) (uid tid : Nat) (p : TaskUpdate)
    (t : Task) (ts2 : List Task) (t2 : Task)
    (hf : findTask ts tid uid = some t)
    (h : update_task ts uid tid p = Except.ok (ts2, t2)) :
    t2.id = t.id ∧ t2.user_id = t.user_id ∧ t2.created_at = t.created_at ∧
    (p.title = none → t2.title = t.title) ∧
    (p.description = none → t2.description = t.description) ∧
    (p.status = none → t2.status = t.status) ∧
    (p.priority = none → t2.priority = t.priority) ∧
    (p.due_date = none → t2.due_date = t.due_date) ∧
    (∀ s, p.title = some s → t2.title = pyStrip s) ∧
    (∀ s, p.description = some s → t2.description = pyStrip s) ∧
    (∀ s, p.status = some s → t2.status = s) ∧
    (∀ s, p.priority = some s → t2.priority = s) ∧
    (∀ s, p.due_date = some s → t2.due_date = some s) := by
  simp only [update_task, hf] at h
  split at h
  · simp only [Except.ok.injEq, Prod.mk.injEq] at h
    have ht2 : t2 = applyUpdate p t := h.2.symm
    subst ht2
    refine ⟨rfl, rfl, rfl, ?_, ?_, ?_, ?_, ?_, ?_, ?_, ?_, ?_, ?_⟩
    all_goals
      first
      | (intro hn; simp only [applyUpdate, hn])
      | (intro s hn; simp only [applyUpdate, hn])
  · exact Except.noConfusion h

/-- C10 witness: updating only the status of a concrete task keeps its
title, description, priority, due date, id, owner and creation timestamp. -/
theorem update_task_frame_witness :
    (Task.mk 5 1 "t" "d" "done" "low" none 42).title =
      (Task.mk 5 1 "t" "d" "todo" "low" none 42).title ∧
    (Task.mk 5 1 "t" "d" "done" "low" none 42).created_at =
      (Task.mk 5 1 "t" "d" "todo" "low" none 42).created_at ∧
    (Task.mk 5 1 "t" "d" "done" "low" none 42).status = "done" := by
  have h := update_task_frame [Task.mk 5 1 "t" "d" "todo" "low" none 42] 1 5
    (TaskUpdate.mk none none (some "done") none none)
    (Task.mk 5 1 "t" "d" "todo" "low" none 42)
    [Task.mk 5 1 "t" "d" "done" "low" none 42]
    (Task.mk 5 1 "t" "d" "done" "low" none 42)
    (by decide) rfl
  exact ⟨h.2.2.2.1 rfl, h.2.2.1, h.2.2.2.2.2.2.2.2.2.2.1 "done" rfl⟩

end TaskDashboard
